import Mathlib

/-!
Shallow embedding of the two-node private-diary backend (src/backend1.js):
the login state machine, session ledger, access-control list, the
replication engine and the health monitor.  Time is modelled as
milliseconds (Nat); the durable store as explicit Lean state.
-/

namespace DamnXmn

/-- Geographic location, as in the mongoose subdocuments. -/
structure GeoLocation where
  lat : Int
  lon : Int
  accuracy : Int
deriving DecidableEq, Repr

/-- The deviceInfo object sent by the login request body. -/
structure DeviceInfo where
  deviceId : String
  deviceName : String
  ip : String
deriving DecidableEq, Repr

/-- The deviceInfo subdocument of a diary entry (diaryEntrySchema). -/
structure DeviceMeta where
  deviceId : String
  ip : String
  userAgent : String
deriving DecidableEq, Repr

/-- loginActivitySchema: one session record. -/
structure LoginActivityRec where
  userId : String
  deviceId : String
  deviceName : String
  ip : String
  location : Option GeoLocation
  loginTime : Nat
  logoutTime : Option Nat
  isActive : Bool
  isSuspicious : Bool
deriving DecidableEq, Repr

/-- diaryEntrySchema: one diary entry; id stands for the mongo assigned id
used as the replication key. -/
structure DiaryEntryRec where
  id : String
  userId : String
  title : String
  content : String
  date : Nat
  tags : List String
  location : Option GeoLocation
  deviceMeta : Option DeviceMeta
deriving DecidableEq, Repr

/-- userSchema: one user record; the unique username doubles as the id. -/
structure UserRec where
  username : String
  passwordHash : String
  backupPasswordHash : String
  locationPermission : Bool
  notificationPermission : Bool
  telegramChatId : Option String
  blockedIPs : List String
  blockedDevices : List String
  emergencyLockUntil : Option Nat
  lastLogin : Option Nat
deriving DecidableEq, Repr

/-- The durable store of one node, as seen by the login endpoint. -/
structure DB where
  users : List UserRec
  activities : List LoginActivityRec
deriving DecidableEq, Repr

/-- The JS truthiness test on emergencyLockUntil combined with the
comparison new Date() < user.emergencyLockUntil (line 93). -/
def isLocked (now : Nat) (u : UserRec) : Bool :=
  match u.emergencyLockUntil with
  | some t => now < t
  | none => false

/-- user.save(): persist the mutated user record back into the store,
keyed by the unique username. -/
def saveUser (db : DB) (u : UserRec) : DB :=
  { db with users := db.users.map (fun x => if x.username == u.username then u else x) }

/-- LoginActivity.create: append a fresh session record. -/
def appendActivity (db : DB) (a : LoginActivityRec) : DB :=
  { db with activities := db.activities ++ [a] }

/-- Outcome of POST /api/login. -/
inductive LoginResult where
  | invalidCredentials
  | accountLocked (lockedUntil : Nat)
  | locationRequired
  | success (token : String) (username : String) (requiresNotificationPermission : Bool)
deriving DecidableEq, Repr

/-- Lines 99-143: the part of the login handler after the lock check.
compare stands for bcrypt.compare; freshToken for the random token. -/
def checkCredentials (compare : String → String → Bool) (now : Nat) (freshToken : String)
    (password : String) (isBackup : Bool) (di : DeviceInfo)
    (location : Option GeoLocation) (db : DB) (user : UserRec) : LoginResult × DB :=
  let passwordToCheck := if isBackup then user.backupPasswordHash else user.passwordHash
  if compare password passwordToCheck then
    match location with
    | none =>
      let db1 := saveUser db { user with emergencyLockUntil := some (now + 15 * 60 * 1000) }
      let db2 := appendActivity db1
        { userId := user.username, deviceId := di.deviceId, deviceName := di.deviceName,
          ip := di.ip, location := none, loginTime := now, logoutTime := none,
          isActive := true, isSuspicious := true }
      (LoginResult.locationRequired, db2)
    | some loc =>
      let db1 := saveUser db { user with lastLogin := some now }
      let db2 := appendActivity db1
        { userId := user.username, deviceId := di.deviceId, deviceName := di.deviceName,
          ip := di.ip, location := some loc, loginTime := now, logoutTime := none,
          isActive := true, isSuspicious := false }
      (LoginResult.success freshToken user.username (!user.notificationPermission), db2)
  else
    (LoginResult.invalidCredentials, db)

/-- Lines 93-97: the emergency-lock gate that runs once the user was found,
before any credential check. -/
def lockCheck (compare : String → String → Bool) (now : Nat) (freshToken : String)
    (password : String) (isBackup : Bool) (di : DeviceInfo)
    (location : Option GeoLocation) (db : DB) (user : UserRec) : LoginResult × DB :=
  match user.emergencyLockUntil with
  | some t =>
    if now < t then
      (LoginResult.accountLocked t, db)
    else
      checkCredentials compare now freshToken password isBackup di location db user
  | none =>
    checkCredentials compare now freshToken password isBackup di location db user

/-- POST /api/login (lines 84-148). -/
def login (compare : String → String → Bool) (now : Nat) (freshToken : String)
    (username password : String) (isBackup : Bool) (di : DeviceInfo)
    (location : Option GeoLocation) (db : DB) : LoginResult × DB :=
  match db.users.find? (fun u => u.username == username) with
  | none => (LoginResult.invalidCredentials, db)
  | some user =>
    lockCheck compare now freshToken password isBackup di location db user

/-- Truth value of whether a login outcome is a rejection that the handler
returns before reaching any write (lines 89-104). -/
def isRejection : LoginResult → Bool
  | LoginResult.invalidCredentials => true
  | LoginResult.accountLocked _ => true
  | _ => false

theorem find?_saveUser (l : List UserRec) (uname : String) (user u' : UserRec)
    (h : l.find? (fun u => u.username == uname) = some user)
    (hn : u'.username = user.username) :
    (l.map (fun x => if x.username == u'.username then u' else x)).find?
      (fun u => u.username == uname) = some u' := by
  induction l with
  | nil => simp at h
  | cons x xs ih =>
    cases hxb : (x.username == uname) with
    | true =>
      have hxu : x = user := by
        have h' := h
        simp [List.find?, hxb] at h'
        exact h'
      have hx : x.username = uname := by simpa using hxb
      have hcond : (x.username == u'.username) = true := by
        simp [hn, hxu]
      have hum : (u'.username == uname) = true := by
        rw [hn, ← hxu]
        exact hxb
      simp [List.find?, hcond, hum]
    | false =>
      have h' := h
      simp only [List.find?, hxb] at h'
      have husername : user.username = uname := by
        simpa using List.find?_some h'
      have hcond : (x.username == u'.username) = false := by
        rw [hn, husername]
        exact hxb
      rw [List.map_cons]
      have hkeep : (if (x.username == u'.username) = true then u' else x) = x := by
        simp [hcond]
      rw [hkeep]
      rw [List.find?_cons_of_neg _ (by simp [hxb])]
      exact ih h'

theorem checkCredentials_rejection_no_effect (compare : String → String → Bool)
    (now : Nat) (freshToken password : String) (isBackup : Bool) (di : DeviceInfo)
    (location : Option GeoLocation) (db : DB) (user : UserRec)
    (h : isRejection (checkCredentials compare now freshToken password isBackup di
          location db user).1 = true) :
    (checkCredentials compare now freshToken password isBackup di location db user).2
      = db := by
  cases hc : compare password (if isBackup then user.backupPasswordHash
      else user.passwordHash) with
  | false => simp [checkCredentials, hc]
  | true => cases location <;> simp [checkCredentials, hc, isRejection] at h

/-- Claim C1: when emergencyLockUntil is set and strictly in the future, the
login fails with AccountLocked carrying that timestamp and leaves the store
untouched, for every choice of credential verifier, secret, backup flag and
location — the lock check precedes any credential verification. -/
theorem login_locked_rejects_before_verification
    (compare : String → String → Bool) (now : Nat)
    (freshToken username password : String) (isBackup : Bool) (di : DeviceInfo)
    (location : Option GeoLocation) (db : DB) (user : UserRec) (t : Nat)
    (hfind : db.users.find? (fun u => u.username == username) = some user)
    (hlock : user.emergencyLockUntil = some t)
    (hnow : now < t) :
    login compare now freshToken username password isBackup di location db =
      (LoginResult.accountLocked t, db) := by
  simp [login, lockCheck, hfind, hlock, hnow]

def aliceLocked : UserRec :=
  { username := "alice", passwordHash := "pw", backupPasswordHash := "bk",
    locationPermission := false, notificationPermission := false,
    telegramChatId := none, blockedIPs := [], blockedDevices := [],
    emergencyLockUntil := some 100, lastLogin := none }

def aliceOpen : UserRec :=
  { username := "alice", passwordHash := "pw", backupPasswordHash := "bk",
    locationPermission := false, notificationPermission := false,
    telegramChatId := none, blockedIPs := [], blockedDevices := [],
    emergencyLockUntil := none, lastLogin := none }

def di0 : DeviceInfo := { deviceId := "d1", deviceName := "phone", ip := "1.1.1.1" }

def dbLocked : DB := { users := [aliceLocked], activities := [] }

def dbOpen : DB := { users := [aliceOpen], activities := [] }

/-- Claim C1 witness: a concrete locked user is rejected with the lock
timestamp even though the supplied secret is the correct one. -/
theorem login_locked_rejects_witness :
    login (fun s h => s == h) 5 "tok" "alice" "pw" false di0 none dbLocked =
      (LoginResult.accountLocked 100, dbLocked) :=
  login_locked_rejects_before_verification (fun s h => s == h) 5 "tok" "alice" "pw"
    false di0 none dbLocked aliceLocked 100 (by decide) (by decide) (by decide)

/-- Claim C2: a verified login with no location overwrites emergencyLockUntil
with now + 15 minutes, appends exactly one suspicious session record with
loginTime = now, and fails with LocationRequired. -/
theorem login_missing_location_triggers_lockout
    (compare : String → String → Bool) (now : Nat)
    (freshToken username password : String) (isBackup : Bool) (di : DeviceInfo)
    (db : DB) (user : UserRec)
    (hfind : db.users.find? (fun u => u.username == username) = some user)
    (hlock : isLocked now user = false)
    (hpw : compare password (if isBackup then user.backupPasswordHash
        else user.passwordHash) = true) :
    (login compare now freshToken username password isBackup di none db).1 =
        LoginResult.locationRequired ∧
    (login compare now freshToken username password isBackup di none db).2.activities =
        db.activities ++
          [{ userId := user.username, deviceId := di.deviceId,
             deviceName := di.deviceName, ip := di.ip, location := none,
             loginTime := now, logoutTime := none,
             isActive := true, isSuspicious := true }] ∧
    (login compare now freshToken username password isBackup di none db).2.users.find?
        (fun u => u.username == username) =
      some { user with emergencyLockUntil := some (now + 15 * 60 * 1000) } := by
  have hcc : login compare now freshToken username password isBackup di none db =
      checkCredentials compare now freshToken password isBackup di none db user := by
    cases hu : user.emergencyLockUntil with
    | none => simp [login, lockCheck, hfind, hu]
    | some t =>
      have hnt : ¬ now < t := by simpa [isLocked, hu] using hlock
      simp [login, lockCheck, hfind, hu, hnt]
  have hstep : checkCredentials compare now freshToken password isBackup di none db user =
      (LoginResult.locationRequired,
        appendActivity
          (saveUser db { user with emergencyLockUntil := some (now + 15 * 60 * 1000) })
          { userId := user.username, deviceId := di.deviceId,
            deviceName := di.deviceName, ip := di.ip, location := none,
            loginTime := now, logoutTime := none,
            isActive := true, isSuspicious := true }) := by
    simp [checkCredentials, hpw]
  rw [hcc, hstep]
  refine ⟨rfl, by simp [appendActivity, saveUser], ?_⟩
  simp only [appendActivity, saveUser]
  exact find?_saveUser db.users username user
    { user with emergencyLockUntil := some (now + 15 * 60 * 1000) } hfind rfl

/-- Claim C2 witness: the concrete unlocked user with the correct password and
no location is rejected with LocationRequired. -/
theorem login_missing_location_witness :
    (login (fun s h => s == h) 7 "tok" "alice" "pw" false di0 none dbOpen).1 =
      LoginResult.locationRequired :=
  (login_missing_location_triggers_lockout (fun s h => s == h) 7 "tok" "alice" "pw"
    false di0 dbOpen aliceOpen (by decide) (by decide) (by decide)).1

/-- Claim C5: a verified login with a location sets lastLogin to now, appends
exactly one active non-suspicious session record storing the supplied
location, and succeeds with the fresh token and the flag telling whether
notification permission still has to be requested. -/
theorem login_success_records_session
    (compare : String → String → Bool) (now : Nat)
    (freshToken username password : String) (isBackup : Bool) (di : DeviceInfo)
    (loc : GeoLocation) (db : DB) (user : UserRec)
    (hfind : db.users.find? (fun u => u.username == username) = some user)
    (hlock : isLocked now user = false)
    (hpw : compare password (if isBackup then user.backupPasswordHash
        else user.passwordHash) = true) :
    (login compare now freshToken username password isBackup di (some loc) db).1 =
        LoginResult.success freshToken user.username (!user.notificationPermission) ∧
    (login compare now freshToken username password isBackup di (some loc) db).2.activities =
        db.activities ++
          [{ userId := user.username, deviceId := di.deviceId,
             deviceName := di.deviceName, ip := di.ip, location := some loc,
             loginTime := now, logoutTime := none,
             isActive := true, isSuspicious := false }] ∧
    (login compare now freshToken username password isBackup di (some loc) db).2.users.find?
        (fun u => u.username == username) =
      some { user with lastLogin := some now } := by
  have hcc : login compare now freshToken username password isBackup di (some loc) db =
      checkCredentials compare now freshToken password isBackup di (some loc) db user := by
    cases hu : user.emergencyLockUntil with
    | none => simp [login, lockCheck, hfind, hu]
    | some t =>
      have hnt : ¬ now < t := by simpa [isLocked, hu] using hlock
      simp [login, lockCheck, hfind, hu, hnt]
  have hstep : checkCredentials compare now freshToken password isBackup di
        (some loc) db user =
      (LoginResult.success freshToken user.username (!user.notificationPermission),
        appendActivity
          (saveUser db { user with lastLogin := some now })
          { userId := user.username, deviceId := di.deviceId,
            deviceName := di.deviceName, ip := di.ip, location := some loc,
            loginTime := now, logoutTime := none,
            isActive := true, isSuspicious := false }) := by
    simp [checkCredentials, hpw]
  rw [hcc, hstep]
  refine ⟨rfl, by simp [appendActivity, saveUser], ?_⟩
  simp only [appendActivity, saveUser]
  exact find?_saveUser db.users username user
    { user with lastLogin := some now } hfind rfl

/-- Claim C5 witness: the concrete unlocked user with the correct password and
a location succeeds and is told notification permission is still needed. -/
theorem login_success_witness :
    (login (fun s h => s == h) 7 "tok" "alice" "pw" false di0
        (some { lat := 1, lon := 2, accuracy := 3 }) dbOpen).1 =
      LoginResult.success "tok" "alice" true :=
  (login_success_records_session (fun s h => s == h) 7 "tok" "alice" "pw"
    false di0 { lat := 1, lon := 2, accuracy := 3 } dbOpen aliceOpen
    (by decide) (by decide) (by decide)).1

/-- Claim C10: a login that ends in InvalidCredentials or AccountLocked leaves
the durable store exactly as it was: no user field changes and no session
record is appended. -/
theorem login_rejection_no_side_effects
    (compare : String → String → Bool) (now : Nat)
    (freshToken username password : String) (isBackup : Bool) (di : DeviceInfo)
    (location : Option GeoLocation) (db : DB)
    (h : isRejection (login compare now freshToken username password isBackup di
          location db).1 = true) :
    (login compare now freshToken username password isBackup di location db).2 = db := by
  cases hf : db.users.find? (fun u => u.username == username) with
  | none => simp [login, hf]
  | some user =>
    simp only [login, hf] at h ⊢
    cases hu : user.emergencyLockUntil with
    | none =>
      simp only [lockCheck, hu] at h ⊢
      exact checkCredentials_rejection_no_effect compare now freshToken password
        isBackup di location db user h
    | some t =>
      by_cases hn : now < t
      · simp [lockCheck, hu, hn]
      · simp only [lockCheck, hu, if_neg hn] at h ⊢
        exact checkCredentials_rejection_no_effect compare now freshToken password
          isBackup di location db user h

/-- Claim C10 witness: a wrong password against the concrete unlocked user is
rejected and leaves the store unchanged. -/
theorem login_rejection_no_side_effects_witness :
    (login (fun s h => s == h) 7 "tok" "alice" "wrong" false di0 none dbOpen).2 =
      dbOpen :=
  login_rejection_no_side_effects (fun s h => s == h) 7 "tok" "alice" "wrong"
    false di0 none dbOpen (by decide)

/-- POST /api/logout-device (lines 209-223): LoginActivity.updateOne with
filter deviceId plus isActive, setting isActive false and logoutTime; a
mongo updateOne touches only the first matching record. -/
def closeDevice (now : Nat) (deviceId : String) :
    List LoginActivityRec → List LoginActivityRec
  | [] => []
  | a :: rest =>
    if a.deviceId == deviceId && a.isActive then
      { a with isActive := false, logoutTime := some now } :: rest
    else
      a :: closeDevice now deviceId rest

/-- Number of session records for a device that are still marked active. -/
def countActive (deviceId : String) (l : List LoginActivityRec) : Nat :=
  (l.filter (fun a => a.deviceId == deviceId && a.isActive)).length

def actA : LoginActivityRec :=
  { userId := "u", deviceId := "d1", deviceName := "phone", ip := "1.1.1.1",
    location := none, loginTime := 1, logoutTime := none,
    isActive := true, isSuspicious := false }

def actB : LoginActivityRec := { actA with loginTime := 2 }

/-- Claim C3 counterexample: with two active records for device d1, a
closeDevice call leaves one of them still active, so it is false that
afterwards no session record for d1 has isActive = true. -/
theorem closeDevice_counterexample :
    countActive "d1" [actA, actB] = 2 ∧
    countActive "d1" (closeDevice 5 "d1" [actA, actB]) = 1 := by
  constructor <;> decide

/-- Claim C3 (amended): closeDevice deactivates only the first matching
active record, so each call lowers the count of active records for the
device by exactly one; only when at most one was active beforehand does no
active record remain. -/
theorem closeDevice_deactivates_first_match (now : Nat) (d : String)
    (l : List LoginActivityRec) :
    countActive d (closeDevice now d l) = countActive d l - 1 := by
  induction l with
  | nil => rfl
  | cons a rest ih =>
    by_cases hc : (a.deviceId == d && a.isActive) = true
    · simp [closeDevice, hc, countActive, List.filter_cons]
    · simp only [closeDevice, hc, if_false, Bool.false_eq_true, ite_false]
      simp only [countActive, List.filter_cons] at ih ⊢
      rw [Bool.not_eq_true] at hc
      simp [hc, ih]

/-- POST /api/block-ip (lines 225-239): User.updateOne with addToSet, which
inserts the ip only when it is not already a member. -/
def blockIP (ip : String) (u : UserRec) : UserRec :=
  if ip ∈ u.blockedIPs then u else { u with blockedIPs := u.blockedIPs ++ [ip] }

/-- Claim C8: blockIP is an idempotent set-insert: starting from a store
with no duplicate membership of ip, any positive number of repeated calls
leaves exactly one occurrence of ip in the blocked list. -/
theorem blockIP_idempotent_membership (ip : String) (u : UserRec) (n : Nat)
    (h1 : List.count ip u.blockedIPs ≤ 1) (h2 : 1 ≤ n) :
    List.count ip (((blockIP ip)^[n]) u).blockedIPs = 1 := by
  obtain ⟨k, rfl⟩ : ∃ k, n = k + 1 := ⟨n - 1, by omega⟩
  rw [Function.iterate_succ_apply]
  have hone : List.count ip (blockIP ip u).blockedIPs = 1 := by
    by_cases hm : ip ∈ u.blockedIPs
    · have hpos : 0 < List.count ip u.blockedIPs := List.count_pos_iff.mpr hm
      simp only [blockIP, hm, if_true]
      omega
    · have hz : List.count ip u.blockedIPs = 0 := by
        rw [List.count_eq_zero]
        exact hm
      simp [blockIP, hm, hz]
  have hmem : ip ∈ (blockIP ip u).blockedIPs := by
    by_cases hm : ip ∈ u.blockedIPs
    · simp [blockIP, hm]
    · simp [blockIP, hm]
  have hfix : blockIP ip (blockIP ip u) = blockIP ip u := if_pos hmem
  rw [Function.iterate_fixed hfix]
  exact hone

/-- Claim C8 witness: three repeated blockIP calls on a user with an empty
blocked list leave exactly one occurrence of the ip. -/
theorem blockIP_idempotent_witness :
    List.count "9.9.9.9" (((blockIP "9.9.9.9")^[3]) aliceOpen).blockedIPs = 1 :=
  blockIP_idempotent_membership "9.9.9.9" aliceOpen 3 (by decide) (by decide)

section UpsertEngine

variable {α κ : Type} [DecidableEq κ]

/-- findOneAndUpdate with upsert true: replace the first record whose
identity key matches the incoming one, or insert it at the end. -/
def upsertOne (key : α → κ) (r : α) : List α → List α
  | [] => [r]
  | x :: xs => if key x = key r then r :: xs else x :: upsertOne key r xs

/-- The ingest loop of POST /api/sync-diary and /api/sync-activity: one
upsert per incoming record, in batch order. -/
def upsertBatch (key : α → κ) (batch store : List α) : List α :=
  batch.foldl (fun s r => upsertOne key r s) store

/-- findOne keyed by identity: the first record carrying the key. -/
def findByKey (key : α → κ) (c : κ) : List α → Option α
  | [] => none
  | x :: xs => if key x = c then some x else findByKey key c xs

theorem findByKey_upsertOne_self (key : α → κ) (r : α) (s : List α) :
    findByKey key (key r) (upsertOne key r s) = some r := by
  induction s with
  | nil => simp [upsertOne, findByKey]
  | cons x xs ih =>
    by_cases h : key x = key r
    · simp [upsertOne, h, findByKey]
    · simp [upsertOne, h, findByKey, ih]

theorem findByKey_upsertOne_ne (key : α → κ) (y : α) (c : κ) (s : List α)
    (h : key y ≠ c) :
    findByKey key c (upsertOne key y s) = findByKey key c s := by
  induction s with
  | nil => simp [upsertOne, findByKey, h]
  | cons x xs ih =>
    by_cases hx : key x = key y
    · have hxc : ¬ key x = c := by rw [hx]; exact h
      simp [upsertOne, hx, findByKey, h, hxc]
    · have hrw : upsertOne key y (x :: xs) = x :: upsertOne key y xs := by
        simp [upsertOne, hx]
      rw [hrw]
      by_cases hc : key x = c
      · simp [findByKey, hc]
      · simp [findByKey, hc, ih]

theorem upsertOne_of_findByKey_self (key : α → κ) (r : α) (s : List α)
    (h : findByKey key (key r) s = some r) :
    upsertOne key r s = s := by
  induction s with
  | nil => simp [findByKey] at h
  | cons x xs ih =>
    by_cases hx : key x = key r
    · have hxr : x = r := by simpa [findByKey, hx] using h
      simp [upsertOne, hx, hxr]
    · have h' : findByKey key (key r) xs = some r := by
        simpa [findByKey, hx] using h
      simp [upsertOne, hx, ih h']

theorem isSome_findByKey_upsertOne (key : α → κ) (y : α) (c : κ) (s : List α)
    (h : (findByKey key c s).isSome) :
    (findByKey key c (upsertOne key y s)).isSome := by
  by_cases hy : key y = c
  · rw [← hy, findByKey_upsertOne_self]
    rfl
  · rw [findByKey_upsertOne_ne key y c s hy]
    exact h

theorem isSome_findByKey_upsertBatch (key : α → κ) (b : List α) (c : κ)
    (s : List α) (h : (findByKey key c s).isSome) :
    (findByKey key c (upsertBatch key b s)).isSome := by
  induction b generalizing s with
  | nil => exact h
  | cons r rest ih => exact ih _ (isSome_findByKey_upsertOne key r c s h)

theorem findByKey_upsertBatch_not_mem (key : α → κ) (b : List α) (c : κ)
    (s : List α) (hb : ∀ r ∈ b, key r ≠ c) :
    findByKey key c (upsertBatch key b s) = findByKey key c s := by
  induction b generalizing s with
  | nil => rfl
  | cons r rest ih =>
    show findByKey key c (upsertBatch key rest (upsertOne key r s)) = _
    rw [ih _ (fun x hx => hb x (List.mem_cons_of_mem r hx))]
    exact findByKey_upsertOne_ne key r c s (hb r (List.mem_cons_self r rest))

/-- Two stores that carry the same keys in the same positions and agree
everywhere except possibly at the first position holding key k. -/
inductive KeyAgree (key : α → κ) (k : κ) : List α → List α → Prop
  | nil : KeyAgree key k [] []
  | headSwap (x y : α) (xs : List α) (hx : key x = k) (hy : key y = k) :
      KeyAgree key k (x :: xs) (y :: xs)
  | tail (x : α) (xs ys : List α) (hx : key x ≠ k) (h : KeyAgree key k xs ys) :
      KeyAgree key k (x :: xs) (x :: ys)

theorem keyAgree_refl (key : α → κ) (k : κ) (l : List α) : KeyAgree key k l l := by
  induction l with
  | nil => exact KeyAgree.nil
  | cons x xs ih =>
    by_cases hx : key x = k
    · exact KeyAgree.headSwap x x xs hx hx
    · exact KeyAgree.tail x xs xs hx ih

theorem upsertOne_keyAgree (key : α → κ) (r : α) (s : List α)
    (h : (findByKey key (key r) s).isSome) :
    KeyAgree key (key r) (upsertOne key r s) s := by
  induction s with
  | nil => simp [findByKey] at h
  | cons x xs ih =>
    by_cases hx : key x = key r
    · have hrw : upsertOne key r (x :: xs) = r :: xs := by simp [upsertOne, hx]
      rw [hrw]
      exact KeyAgree.headSwap r x xs rfl hx
    · have hs : (findByKey key (key r) xs).isSome := by
        simpa [findByKey, hx] using h
      have hrw : upsertOne key r (x :: xs) = x :: upsertOne key r xs := by
        simp [upsertOne, hx]
      rw [hrw]
      exact KeyAgree.tail x _ _ hx (ih hs)

theorem keyAgree_upsertOne_eq (key : α → κ) (r : α) {v w : List α}
    (h : KeyAgree key (key r) v w) :
    upsertOne key r v = upsertOne key r w := by
  induction h with
  | nil => rfl
  | headSwap x y xs hx hy => simp [upsertOne, hx, hy]
  | tail x xs ys hx hrel ih => simp [upsertOne, hx, ih]

theorem keyAgree_upsertOne_ne (key : α → κ) (r' : α) {k : κ} {v w : List α}
    (h : KeyAgree key k v w) (hne : key r' ≠ k) :
    KeyAgree key k (upsertOne key r' v) (upsertOne key r' w) := by
  induction h with
  | nil => exact keyAgree_refl key k [r']
  | headSwap x y xs hx hy =>
    have hxr : ¬ key x = key r' := by rw [hx]; exact fun e => hne e.symm
    have hyr : ¬ key y = key r' := by rw [hy]; exact fun e => hne e.symm
    simp only [upsertOne, if_neg hxr, if_neg hyr]
    exact KeyAgree.headSwap x y (upsertOne key r' xs) hx hy
  | tail x xs ys hx hrel ih =>
    by_cases hxr : key x = key r'
    · simp only [upsertOne, if_pos hxr]
      exact KeyAgree.tail r' xs ys hne hrel
    · simp only [upsertOne, if_neg hxr]
      exact KeyAgree.tail x _ _ hx ih

theorem keyAgree_upsertBatch (key : α → κ) (b : List α) {k : κ} {v w : List α}
    (h : KeyAgree key k v w) (hb : ∃ r ∈ b, key r = k) :
    upsertBatch key b v = upsertBatch key b w := by
  induction b generalizing v w with
  | nil =>
    obtain ⟨r, hr, _⟩ := hb
    simp at hr
  | cons r' rest ih =>
    show upsertBatch key rest (upsertOne key r' v) =
      upsertBatch key rest (upsertOne key r' w)
    by_cases hk : key r' = k
    · subst hk
      rw [keyAgree_upsertOne_eq key r' h]
    · have h' := keyAgree_upsertOne_ne key r' h hk
      have hb' : ∃ r ∈ rest, key r = k := by
        obtain ⟨r, hr, hrk⟩ := hb
        cases List.mem_cons.mp hr with
        | inl e => exact absurd (e ▸ hrk) hk
        | inr hm => exact ⟨r, hm, hrk⟩
      exact ih h' hb'

theorem upsertBatch_idem (key : α → κ) (b s : List α) :
    upsertBatch key b (upsertBatch key b s) = upsertBatch key b s := by
  induction b generalizing s with
  | nil => rfl
  | cons r rest ih =>
    show upsertBatch key rest
        (upsertOne key r (upsertBatch key rest (upsertOne key r s))) =
      upsertBatch key rest (upsertOne key r s)
    have hmain : upsertBatch key rest
        (upsertOne key r (upsertBatch key rest (upsertOne key r s))) =
        upsertBatch key rest (upsertBatch key rest (upsertOne key r s)) := by
      by_cases hc : ∃ r'' ∈ rest, key r'' = key r
      · have hpresent :
            (findByKey key (key r) (upsertBatch key rest (upsertOne key r s))).isSome := by
          apply isSome_findByKey_upsertBatch
          rw [findByKey_upsertOne_self]
          rfl
        exact keyAgree_upsertBatch key rest
          (upsertOne_keyAgree key r _ hpresent) hc
      · push_neg at hc
        have hfind : findByKey key (key r) (upsertBatch key rest (upsertOne key r s)) =
            some r := by
          rw [findByKey_upsertBatch_not_mem key rest _ _ hc]
          exact findByKey_upsertOne_self key r s
        rw [upsertOne_of_findByKey_self key r _ hfind]
    rw [hmain]
    exact ih (upsertOne key r s)

end UpsertEngine

/-- Identity key of a diary entry for replication: its record id. -/
def diaryKey (e : DiaryEntryRec) : String := e.id

/-- Identity key of a session record for replication: deviceId + loginTime. -/
def activityKey (a : LoginActivityRec) : String × Nat := (a.deviceId, a.loginTime)

/-- POST /api/sync-diary (lines 352-369). -/
def upsertDiaryBatch (entries store : List DiaryEntryRec) : List DiaryEntryRec :=
  upsertBatch diaryKey entries store

/-- POST /api/sync-activity (lines 371-388). -/
def upsertSessionBatch (batch store : List LoginActivityRec) :
    List LoginActivityRec :=
  upsertBatch activityKey batch store

/-- Claim C4: both ingest operations are idempotent last-write-wins upserts
keyed by record id (diary) and by deviceId + loginTime (sessions): applying
the same batch twice yields the same final record set as applying it once. -/
theorem upsert_batches_idempotent :
    (∀ b s : List DiaryEntryRec,
      upsertDiaryBatch b (upsertDiaryBatch b s) = upsertDiaryBatch b s) ∧
    (∀ b s : List LoginActivityRec,
      upsertSessionBatch b (upsertSessionBatch b s) = upsertSessionBatch b s) :=
  ⟨fun b s => upsertBatch_idem diaryKey b s,
   fun b s => upsertBatch_idem activityKey b s⟩

/-- Outcome of a fetch call: a response with ok true, a response with ok
false, or a thrown network error. -/
inductive FetchOutcome where
  | ok
  | notOk
  | throws (msg : String)
deriving DecidableEq, Repr

/-- The replicated part of a node's store: diary entries and sessions. -/
structure Store where
  diaryEntries : List DiaryEntryRec
  loginActivities : List LoginActivityRec
deriving DecidableEq, Repr

/-- The network behaviour a sync cycle runs against: the health fetch and
the two push fetches, each possibly throwing. -/
structure SyncEnv where
  healthFetch : FetchOutcome
  pushDiaryFetch : Option String
  pushActivityFetch : Option String
deriving DecidableEq, Repr

/-- A push delivered to the primary's ingest operations. -/
inductive PushEvent where
  | diary (entries : List DiaryEntryRec)
  | activity (records : List LoginActivityRec)
deriving DecidableEq, Repr

/-- Lines 413-433, the body of syncWithPrimary before the catch: probe the
primary; if ok, read 50 of each entity (find().limit(50) — no sort) and
push them.  Returns the pushes made, the log lines, and the uncaught
exception when a fetch threw. -/
def syncWithPrimaryBody (env : SyncEnv) (s : Store) :
    List PushEvent × List String × Option String :=
  match env.healthFetch with
  | FetchOutcome.throws m => ([], [], some m)
  | FetchOutcome.notOk => ([], [], none)
  | FetchOutcome.ok =>
    let diaryEntries := s.diaryEntries.take 50
    let loginActivities := s.loginActivities.take 50
    match env.pushDiaryFetch with
    | some m => ([], [], some m)
    | none =>
      match env.pushActivityFetch with
      | some m => ([PushEvent.diary diaryEntries], [], some m)
      | none =>
        ([PushEvent.diary diaryEntries, PushEvent.activity loginActivities],
         ["Synced data with primary service"], none)

/-- syncWithPrimary with its surrounding try/catch (lines 413-437): an
exception only appends a log line; the local store is never written. -/
def syncWithPrimaryRun (env : SyncEnv) (s : Store) :
    Store × List PushEvent × List String :=
  match syncWithPrimaryBody env s with
  | (p, logs, none) => (s, p, logs)
  | (p, logs, some m) => (s, p, logs ++ ["Sync with primary failed: " ++ m])

/-- Lines 403-407, the body of checkPrimaryService before the catch. -/
def checkPrimaryServiceBody (f : FetchOutcome) : List String × Option String :=
  match f with
  | FetchOutcome.ok => ([], none)
  | FetchOutcome.notOk => (["Primary service is down, activating backup mode"], none)
  | FetchOutcome.throws m => ([], some m)

/-- checkPrimaryService with its catch (lines 402-411), threading the
untouched store through. -/
def checkPrimaryServiceRun (f : FetchOutcome) (s : Store) : Store × List String :=
  match checkPrimaryServiceBody f with
  | (logs, none) => (s, logs)
  | (logs, some m) =>
    (s, logs ++ ["Cannot reach primary service, backup is active: " ++ m])

/-- GET /api/backup-data (lines 390-400): find().limit(100) on both
collections — no sort — and no write to the store. -/
def pullBackupData (s : Store) :
    (List DiaryEntryRec × List LoginActivityRec) × Store :=
  ((s.diaryEntries.take 100, s.loginActivities.take 100), s)

/-- Insertion step for ordering diary entries newest first. -/
def insertByDateDesc (e : DiaryEntryRec) :
    List DiaryEntryRec → List DiaryEntryRec
  | [] => [e]
  | x :: xs => if x.date < e.date then e :: x :: xs else x :: insertByDateDesc e xs

/-- Rendering of the spec's words, for comparison with the code: the most
recent n diary entries, by recency order (date descending), truncated
to n. -/
def specMostRecentDiary (n : Nat) (l : List DiaryEntryRec) : List DiaryEntryRec :=
  (l.foldr insertByDateDesc []).take n

def mkDatedEntry (i : Nat) : DiaryEntryRec :=
  { id := "", userId := "u", title := "", content := "", date := i, tags := [],
    location := none, deviceMeta := none }

def c6Diary : List DiaryEntryRec := (List.range 51).map mkDatedEntry

def c7Diary : List DiaryEntryRec := (List.range 101).map mkDatedEntry

/-- Claim C6 counterexample: with 51 stored diary entries of strictly
increasing date, a successful sync cycle pushes the first 50 in store
order, which omits the single most recent entry, so the pushed records are
not the most recent 50 by recency order. -/
theorem syncWithPrimary_not_most_recent :
    (syncWithPrimaryRun
        { healthFetch := FetchOutcome.ok, pushDiaryFetch := none,
          pushActivityFetch := none }
        { diaryEntries := c6Diary, loginActivities := [] }).2.1 =
      [PushEvent.diary (c6Diary.take 50), PushEvent.activity []] ∧
    mkDatedEntry 50 ∈ c6Diary ∧
    mkDatedEntry 50 ∉ c6Diary.take 50 ∧
    c6Diary.take 50 ≠ specMostRecentDiary 50 c6Diary := by
  decide

/-- Claim C6 (amended): the sync cycle pushes to the primary's ingest
operations only when the health probe succeeded, and the records pushed
are the first 50 of each entity in store order (truncated to 50), not the
most recent 50: the reads carry no recency sort. -/
theorem syncWithPrimary_guarded_push (env : SyncEnv) (s : Store) :
    ((syncWithPrimaryRun env s).2.1 ≠ [] → env.healthFetch = FetchOutcome.ok) ∧
    (env.healthFetch = FetchOutcome.ok → env.pushDiaryFetch = none →
      env.pushActivityFetch = none →
      (syncWithPrimaryRun env s).2.1 =
        [PushEvent.diary (s.diaryEntries.take 50),
         PushEvent.activity (s.loginActivities.take 50)]) ∧
    (∀ p ∈ (syncWithPrimaryRun env s).2.1,
      p = PushEvent.diary (s.diaryEntries.take 50) ∨
      p = PushEvent.activity (s.loginActivities.take 50)) := by
  obtain ⟨hf, hd, ha⟩ := env
  cases hf <;> cases hd <;> cases ha <;>
    simp [syncWithPrimaryRun, syncWithPrimaryBody]

/-- Claim C6 witness: a successful probe with working pushes delivers both
batches, read from the front of the store. -/
theorem syncWithPrimary_guarded_push_witness :
    (syncWithPrimaryRun
        { healthFetch := FetchOutcome.ok, pushDiaryFetch := none,
          pushActivityFetch := none }
        { diaryEntries := [], loginActivities := [actA] }).2.1 =
      [PushEvent.diary [], PushEvent.activity [actA]] := by
  have h := (syncWithPrimary_guarded_push
    { healthFetch := FetchOutcome.ok, pushDiaryFetch := none,
      pushActivityFetch := none }
    { diaryEntries := [], loginActivities := [actA] }).2.1 rfl rfl rfl
  simpa using h

/-- Claim C7 counterexample: with 101 stored diary entries of strictly
increasing date, pullBackupData returns the first 100 in store order,
omitting the single most recent entry, so its result is not the most
recent 100 by recency. -/
theorem pullBackupData_not_most_recent :
    (pullBackupData { diaryEntries := c7Diary, loginActivities := [] }).1.1 =
      c7Diary.take 100 ∧
    mkDatedEntry 100 ∈ c7Diary ∧
    mkDatedEntry 100 ∉ c7Diary.take 100 ∧
    c7Diary.take 100 ≠ specMostRecentDiary 100 c7Diary := by
  decide

/-- Claim C7 (amended): pullBackupData is read-only — the store it returns
is exactly the store it was given — and it returns at most 100 diary
entries and at most 100 session records, namely the first 100 of each in
store order rather than a selection by recency. -/
theorem pullBackupData_readonly_bounded (s : Store) :
    (pullBackupData s).2 = s ∧
    (pullBackupData s).1.1 = s.diaryEntries.take 100 ∧
    (pullBackupData s).1.2 = s.loginActivities.take 100 ∧
    (pullBackupData s).1.1.length ≤ 100 ∧
    (pullBackupData s).1.2.length ≤ 100 := by
  refine ⟨rfl, rfl, rfl, ?_, ?_⟩ <;> simp [pullBackupData]

/-- Claim C9: every failure inside the health probe and the sync cycle is
swallowed: the store is never changed, a thrown health fetch in the probe
only produces the log line, a thrown health fetch or a failed push in the
sync cycle only produces the failure log line, and nothing is surfaced. -/
theorem monitor_sync_failures_swallowed (f : FetchOutcome) (env : SyncEnv)
    (s : Store) (m : String) :
    (checkPrimaryServiceRun f s).1 = s ∧
    (syncWithPrimaryRun env s).1 = s ∧
    (f = FetchOutcome.throws m →
      (checkPrimaryServiceRun f s).2 =
        ["Cannot reach primary service, backup is active: " ++ m]) ∧
    (env.healthFetch = FetchOutcome.throws m →
      (syncWithPrimaryRun env s).2 =
        ([], ["Sync with primary failed: " ++ m])) ∧
    (env.healthFetch = FetchOutcome.ok → env.pushDiaryFetch = some m →
      (syncWithPrimaryRun env s).2 =
        ([], ["Sync with primary failed: " ++ m])) := by
  obtain ⟨hf, hd, ha⟩ := env
  refine ⟨?_, ?_, ?_, ?_, ?_⟩
  · cases f <;> rfl
  · cases hf <;> cases hd <;> cases ha <;> rfl
  · intro h
    subst h
    rfl
  · intro h
    have h' : hf = FetchOutcome.throws m := h
    subst h'
    rfl
  · intro h1 h2
    have h1' : hf = FetchOutcome.ok := h1
    have h2' : hd = some m := h2
    subst h1'
    subst h2'
    rfl

/-- Claim C9 witness: an unreachable primary during a sync cycle leaves the
store as is and produces only the failure log line. -/
theorem monitor_sync_failures_swallowed_witness :
    (syncWithPrimaryRun
        { healthFetch := FetchOutcome.throws "down", pushDiaryFetch := none,
          pushActivityFetch := none }
        { diaryEntries := [], loginActivities := [] }).2 =
      ([], ["Sync with primary failed: " ++ "down"]) :=
  (monitor_sync_failures_swallowed (FetchOutcome.throws "down")
    { healthFetch := FetchOutcome.throws "down", pushDiaryFetch := none,
      pushActivityFetch := none }
    { diaryEntries := [], loginActivities := [] } "down").2.2.2.1 rfl

end DamnXmn
